import Mathlib

/-!
Verification of the signal integrity monitor (`integrity_service/main.py`).

The development shallowly embeds the ingestion pipeline of the service:
the per-user Redis sliding window (`zadd` / `zremrangebyscore` / `zcard` /
`zrange`), the threshold lookup and severity classification, the
`commit_with_retry` persistence policy, the webhook dispatch, and the
request-boundary validation performed by the pydantic `SignalEvent` model.

Timestamps are modelled as exact rationals (epoch seconds).  The Redis
sorted set stores the timestamp both as member and as score, so a user's
window is a finite set of rationals (`Finset ℚ`): adding an already
present timestamp is a no-op, exactly as `zadd` behaves when the member
string coincides.
-/

namespace SignalService

/-- Severity tier of an anomaly, as stored in the `severity` column. -/
inductive Severity where
  | warning
  | critical
deriving DecidableEq, Repr

/-- The severity decision of `ingest` (main.py lines 129–131):
no anomaly unless `count > thresh`; inside the breach branch,
`"critical" if count > thresh * 1.5 else "warning"`. -/
def severityOf (count : ℕ) (thresh : ℤ) : Option Severity :=
  if thresh < (count : ℤ) then
    some (if (thresh : ℚ) * 1.5 < (count : ℚ) then Severity.critical else Severity.warning)
  else none

/-- `r.zremrangebyscore(key, 0, cutoff)` (main.py line 124): removes every
member whose score lies in the closed interval `[0, cutoff]`. -/
def prune (w : Finset ℚ) (cutoff : ℚ) : Finset ℚ :=
  w.filter (fun t => ¬ (0 ≤ t ∧ t ≤ cutoff))

/-- `r.zadd(key, {now_ts: now_ts})` (main.py line 119): the timestamp is both
member and score, so insertion into the sorted set is set insertion. -/
def recordTs (w : Finset ℚ) (t : ℚ) : Finset ℚ :=
  insert t w

/-- One window update of `ingest` (main.py lines 119–124): add the event's
timestamp, then purge scores in `[0, timestamp - 5]`. -/
def step (w : Finset ℚ) (t : ℚ) : Finset ℚ :=
  prune (recordTs w t) (t - 5)

/-- The window of a single user after a sequence of events, starting from an
empty window. -/
def ingestAll (l : List ℚ) : Finset ℚ :=
  l.foldl step ∅

/-- CLAIM C1.  With `count` the post-prune window size and `thresh` the
configured threshold: no anomaly when `count ≤ thresh`; a `warning` anomaly
when `thresh < count ≤ thresh * 1.5`; a `critical` anomaly when
`count > thresh * 1.5`; in particular `count = thresh` yields no anomaly and
`count = thresh + 1` yields at least a warning. -/
theorem severity_trichotomy (count : ℕ) (thresh : ℤ) :
    ((count : ℤ) ≤ thresh → severityOf count thresh = none)
    ∧ (thresh < (count : ℤ) → (count : ℚ) ≤ (thresh : ℚ) * 1.5 →
        severityOf count thresh = some Severity.warning)
    ∧ ((thresh : ℚ) * 1.5 < (count : ℚ) → severityOf count thresh = some Severity.critical)
    ∧ ((count : ℤ) = thresh → severityOf count thresh = none)
    ∧ ((count : ℤ) = thresh + 1 → severityOf count thresh ≠ none) := by
  refine ⟨?_, ?_, ?_, ?_, ?_⟩
  · intro h
    simp [severityOf, not_lt.mpr h]
  · intro h₁ h₂
    simp [severityOf, h₁, not_lt.mpr h₂]
  · intro h
    have hcq : (thresh : ℚ) < (count : ℚ) := by
      rcases le_or_lt (thresh : ℤ) 0 with ht | ht
      · have h₀ : (0 : ℚ) ≤ (count : ℚ) := by positivity
        have ht' : (thresh : ℚ) ≤ 0 := by exact_mod_cast ht
        rcases eq_or_lt_of_le ht' with he | hlt
        · nlinarith
        · linarith
      · have ht' : (0 : ℚ) < (thresh : ℚ) := by exact_mod_cast ht
        nlinarith
    have hzi : thresh < (count : ℤ) := by exact_mod_cast hcq
    simp [severityOf, hzi, h]
  · intro h
    simp [severityOf, not_lt.mpr (le_of_eq h)]
  · intro h
    have h₁ : thresh < (count : ℤ) := by omega
    simp [severityOf, h₁]

/-- Concrete instances of `severity_trichotomy`: at threshold 4, a count of 4
gives no anomaly, 5 gives a warning, and 7 gives a critical anomaly. -/
theorem severity_trichotomy_witness :
    severityOf 4 4 = none
    ∧ severityOf 5 4 = some Severity.warning
    ∧ severityOf 7 4 = some Severity.critical := by
  refine ⟨?_, ?_, ?_⟩
  · exact (severity_trichotomy 4 4).2.2.2.1 (by norm_num)
  · exact (severity_trichotomy 5 4).2.1 (by norm_num) (by norm_num)
  · exact (severity_trichotomy 7 4).2.2.1 (by norm_num)

/-- The event's own timestamp always survives the purge that follows its
insertion: a non-negative timestamp exceeds `t - 5`, and a negative one lies
outside the purged interval `[0, t - 5]`. -/
lemma mem_step_self (w : Finset ℚ) (t : ℚ) : t ∈ step w t := by
  unfold step prune recordTs
  rw [Finset.mem_filter]
  refine ⟨Finset.mem_insert_self t w, ?_⟩
  rintro ⟨h₀, h₅⟩
  linarith

/-- CLAIM C3 (counterexample).  A window entry whose timestamp equals the
cutoff is removed, not retained (`zremrangebyscore` is inclusive at both
ends), and a negative timestamp strictly older than the cutoff is retained,
not removed (the purge only covers scores from 0 up). -/
theorem prune_cutoff_counterexample :
    prune ({0} : Finset ℚ) 0 = ∅ ∧ prune ({-10} : Finset ℚ) 5 = {-10} := by
  constructor
  · decide
  · decide

/-- CLAIM C3 (amended).  `Prune(cutoff)` removes exactly the entries whose
timestamp lies in `[0, cutoff]` — an entry equal to the cutoff is removed —
so a timestamp survives the prune iff it is in the window and is either
negative or strictly greater than the cutoff.  In particular, after a prune
with cutoff `now - 5` every remaining non-negative timestamp is strictly
greater than `now - 5`. -/
theorem prune_mem_iff (w : Finset ℚ) (c t : ℚ) :
    t ∈ prune w c ↔ t ∈ w ∧ (t < 0 ∨ c < t) := by
  unfold prune
  rw [Finset.mem_filter]
  constructor
  · rintro ⟨hw, h⟩
    refine ⟨hw, ?_⟩
    by_cases h₀ : 0 ≤ t
    · right
      by_contra hc
      exact h ⟨h₀, le_of_not_lt hc⟩
    · left
      exact lt_of_not_le h₀
  · rintro ⟨hw, h⟩
    refine ⟨hw, ?_⟩
    rintro ⟨h₀, hc⟩
    rcases h with h | h
    · linarith
    · linarith

/-- CLAIM C2 (counterexample).  The post-prune count does not equal the
number of recorded timestamps `≥ cutoff`: duplicate timestamps collapse to
one sorted-set member (`[3, 3]` counts 1, not 2); a timestamp equal to the
cutoff is purged (`[0, 5]` counts 1, not 2); and with out-of-order arrival
(`[50, 100, 10]`) an intermediate purge removes a timestamp that is above
the final cutoff (count 2, not 3). -/
theorem count_after_prune_counterexample :
    ((ingestAll [3, 3]).card = 1
      ∧ (([3, 3] : List ℚ).filter (fun t => (3 : ℚ) - 5 ≤ t)).length = 2)
    ∧ ((ingestAll [0, 5]).card = 1
      ∧ (([0, 5] : List ℚ).filter (fun t => (5 : ℚ) - 5 ≤ t)).length = 2)
    ∧ ((ingestAll [50, 100, 10]).card = 2
      ∧ (([50, 100, 10] : List ℚ).filter (fun t => (10 : ℚ) - 5 ≤ t)).length = 3) := by
  refine ⟨⟨?_, ?_⟩, ⟨?_, ?_⟩, ⟨?_, ?_⟩⟩ <;>
    norm_num [ingestAll, step, prune, recordTs, Finset.filter_insert,
      Finset.filter_singleton, List.filter]

/-- After a sorted sequence of non-negative events, the user's window is
exactly the set of recorded timestamps strictly above the final cutoff. -/
lemma ingestAll_sorted (l : List ℚ) (hs : l.Sorted (· ≤ ·)) (hn : ∀ t ∈ l, 0 ≤ t)
    (h : l ≠ []) :
    ingestAll l = l.toFinset.filter (fun t => l.getLast h - 5 < t) := by
  induction l using List.reverseRecOn with
  | nil => exact absurd rfl h
  | append_singleton l' m ih =>
    have hfold : ingestAll (l' ++ [m]) = step (ingestAll l') m := by
      simp [ingestAll, List.foldl_append]
    have hlast : (l' ++ [m]).getLast h = m := by
      simp [List.getLast_append]
    have hm0 : 0 ≤ m := hn m (by simp)
    rcases eq_or_ne l' [] with hl' | hl'
    · subst hl'
      rw [hfold, hlast]
      ext t
      simp only [ingestAll, List.foldl_nil, step, prune, recordTs, Finset.mem_filter,
        Finset.mem_insert, Finset.not_mem_empty, or_false, List.nil_append,
        List.toFinset_cons, List.toFinset_nil, insert_emptyc_eq, Finset.mem_singleton]
      constructor
      · rintro ⟨rfl, -⟩
        exact ⟨rfl, by linarith⟩
      · rintro ⟨rfl, -⟩
        refine ⟨rfl, ?_⟩
        rintro ⟨-, hle⟩
        linarith
    · have hsp := List.pairwise_append.mp hs
      have hsl' : l'.Sorted (· ≤ ·) := hsp.1
      have hmax : ∀ t ∈ l', t ≤ m := fun t ht => hsp.2.2 t ht m (by simp)
      have ihh := ih hsl' (fun t ht => hn t (by simp [ht])) hl'
      have hlastle : l'.getLast hl' ≤ m := hmax _ (List.getLast_mem hl')
      rw [hfold, ihh, hlast]
      ext t
      simp only [step, prune, recordTs, Finset.mem_filter, Finset.mem_insert,
        List.mem_toFinset, List.mem_append, List.mem_singleton]
      constructor
      · rintro ⟨hmem, hkeep⟩
        rcases hmem with rfl | ⟨hmem', hgt⟩
        · refine ⟨Or.inr rfl, ?_⟩
          linarith
        · have ht0 : 0 ≤ t := hn t (by simp [hmem'])
          refine ⟨Or.inl hmem', ?_⟩
          by_contra hc
          exact hkeep ⟨ht0, le_of_not_lt hc⟩
      · rintro ⟨hmem, hgt⟩
        constructor
        · rcases hmem with hmem | rfl
          · right
            exact ⟨hmem, by linarith⟩
          · left
            rfl
        · rintro ⟨-, hle⟩
          linarith

/-- CLAIM C2 (amended).  For events of a single user arriving in
non-decreasing timestamp order with non-negative timestamps, the count after
the final prune equals the number of *distinct* recorded timestamps
*strictly greater* than the cutoff (the final timestamp minus the 5-second
horizon). -/
theorem count_after_prune_sorted (l : List ℚ) (hs : l.Sorted (· ≤ ·))
    (hn : ∀ t ∈ l, 0 ≤ t) (h : l ≠ []) :
    (ingestAll l).card = (l.toFinset.filter (fun t => l.getLast h - 5 < t)).card := by
  rw [ingestAll_sorted l hs hn h]

/-- Concrete instance of `count_after_prune_sorted`: for the sorted event
sequence `[0, 2, 7]` the final cutoff is 2, the purge removes timestamps 0
and 2, and the post-prune count is 1. -/
theorem count_after_prune_sorted_witness :
    (ingestAll [0, 2, 7]).card = 1 := by
  have hcard := count_after_prune_sorted [0, 2, 7]
    (by norm_num [List.sorted_cons]) (by norm_num) (by simp)
  rw [hcard]
  norm_num [Finset.filter_insert, Finset.filter_singleton, List.getLast]

/-- The severity computation yields `critical` exactly when the count
strictly exceeds `threshold * 1.5`. -/
lemma severity_eq_critical_iff (c : ℕ) (t : ℤ) :
    severityOf c t = some Severity.critical ↔ (t : ℚ) * 1.5 < (c : ℚ) := by
  unfold severityOf
  by_cases h : t < (c : ℤ)
  · by_cases h' : (t : ℚ) * 1.5 < (c : ℚ)
    · simp [h, h']
    · simp [h, h']
  · have hle : (c : ℤ) ≤ t := le_of_not_lt h
    have hq : (c : ℚ) ≤ (t : ℚ) := by exact_mod_cast hle
    have h0 : (0 : ℚ) ≤ (c : ℚ) := by positivity
    simp only [h, if_false]
    constructor
    · intro hc
      exact absurd hc (by simp)
    · intro hc
      nlinarith

/-- The severity computation yields `warning` exactly when the count exceeds
the threshold but not `threshold * 1.5`. -/
lemma severity_eq_warning_iff (c : ℕ) (t : ℤ) :
    severityOf c t = some Severity.warning ↔
      (t < (c : ℤ) ∧ (c : ℚ) ≤ (t : ℚ) * 1.5) := by
  unfold severityOf
  by_cases h : t < (c : ℤ)
  · by_cases h' : (t : ℚ) * 1.5 < (c : ℚ)
    · simp [h, h', not_le.mpr h']
    · simp [h, h', le_of_not_lt h']
  · simp [h]

/-- CLAIM C4 (counterexample).  For the even threshold 2 we have
`ceil(2 * 1.5) = 3`, yet a count of 3 produces only a `warning`
(`3 > 2 * 1.5` is false), so `ceil(threshold * 1.5)` is not the first
critical count. -/
theorem ceil_critical_counterexample :
    ⌈(2 : ℚ) * 1.5⌉ = 3 ∧ severityOf 3 2 = some Severity.warning := by
  constructor
  · norm_num
  · rw [severity_eq_warning_iff]
    norm_num

/-- CLAIM C4 (amended).  For every positive integer threshold `t`, the
smallest count producing `critical` severity is `floor(t * 1.5) + 1`; the
count one below it, when it exceeds the threshold, yields `warning`.  This
value equals `ceil(t * 1.5)` exactly when `t` is odd; for even `t` it is
`ceil(t * 1.5) + 1`. -/
theorem first_critical_count (t : ℤ) (ht : 0 < t) :
    severityOf (⌊(t : ℚ) * 1.5⌋ + 1).toNat t = some Severity.critical
    ∧ (∀ c : ℕ, (c : ℤ) < ⌊(t : ℚ) * 1.5⌋ + 1 → severityOf c t ≠ some Severity.critical)
    ∧ (t < ⌊(t : ℚ) * 1.5⌋ → severityOf (⌊(t : ℚ) * 1.5⌋).toNat t = some Severity.warning)
    ∧ (Odd t → ⌊(t : ℚ) * 1.5⌋ + 1 = ⌈(t : ℚ) * 1.5⌉)
    ∧ (Even t → ⌊(t : ℚ) * 1.5⌋ + 1 = ⌈(t : ℚ) * 1.5⌉ + 1) := by
  have htq : (0 : ℚ) < (t : ℚ) := by exact_mod_cast ht
  have hx0 : (0 : ℚ) ≤ (t : ℚ) * 1.5 := by nlinarith
  have hf0 : 0 ≤ ⌊(t : ℚ) * 1.5⌋ := Int.floor_nonneg.mpr hx0
  have hfl : ((⌊(t : ℚ) * 1.5⌋ : ℤ) : ℚ) ≤ (t : ℚ) * 1.5 := Int.floor_le _
  have hfu : (t : ℚ) * 1.5 < (⌊(t : ℚ) * 1.5⌋ : ℚ) + 1 := Int.lt_floor_add_one _
  have htn : ((⌊(t : ℚ) * 1.5⌋ + 1).toNat : ℤ) = ⌊(t : ℚ) * 1.5⌋ + 1 :=
    Int.toNat_of_nonneg (by omega)
  refine ⟨?_, ?_, ?_, ?_, ?_⟩
  · rw [severity_eq_critical_iff]
    rw [show (((⌊(t : ℚ) * 1.5⌋ + 1).toNat : ℕ) : ℚ) = ((⌊(t : ℚ) * 1.5⌋ + 1 : ℤ) : ℚ) by
      exact_mod_cast congrArg (fun z : ℤ => (z : ℚ)) htn]
    push_cast
    linarith
  · intro c hc
    rw [Ne, severity_eq_critical_iff]
    push_neg
    have hcf : (c : ℤ) ≤ ⌊(t : ℚ) * 1.5⌋ := by omega
    have hcq : (c : ℚ) ≤ ((⌊(t : ℚ) * 1.5⌋ : ℤ) : ℚ) := by exact_mod_cast hcf
    linarith
  · intro hlt
    rw [severity_eq_warning_iff]
    constructor
    · omega
    · rw [show ((⌊(t : ℚ) * 1.5⌋.toNat : ℕ) : ℚ) = ((⌊(t : ℚ) * 1.5⌋ : ℤ) : ℚ) by
        exact_mod_cast congrArg (fun z : ℤ => (z : ℚ)) (Int.toNat_of_nonneg hf0)]
      exact hfl
  · rintro ⟨k, rfl⟩
    have hk : (((2 * k + 1 : ℤ)) : ℚ) * 1.5 = ((3 * k + 1 : ℤ) : ℚ) + 0.5 := by
      push_cast
      ring
    rw [hk]
    rw [show ⌊((3 * k + 1 : ℤ) : ℚ) + 0.5⌋ = 3 * k + 1 by
      rw [Int.floor_eq_iff]
      constructor <;> push_cast <;> linarith]
    rw [show ⌈((3 * k + 1 : ℤ) : ℚ) + 0.5⌉ = 3 * k + 2 by
      rw [Int.ceil_eq_iff]
      constructor <;> push_cast <;> linarith]
    omega
  · rintro ⟨k, rfl⟩
    have hk : (((k + k : ℤ)) : ℚ) * 1.5 = ((3 * k : ℤ) : ℚ) := by
      push_cast
      ring
    rw [hk, Int.floor_intCast, Int.ceil_intCast]

/-- Concrete instance of `first_critical_count` at the odd threshold 3:
`floor(3 * 1.5) + 1 = 5` is the first critical count and a count of 4 is a
warning. -/
theorem first_critical_count_witness :
    severityOf 5 3 = some Severity.critical ∧ severityOf 4 3 = some Severity.warning := by
  have h := first_critical_count 3 (by norm_num)
  have hf : ⌊((3 : ℤ) : ℚ) * 1.5⌋ = 4 := by norm_num
  rw [hf] at h
  refine ⟨?_, ?_⟩
  · have h1 := h.1
    norm_num at h1
    exact h1
  · have h3 := h.2.2.1 (by norm_num)
    norm_num at h3
    exact h3

/-- The loaded configuration (main.py lines 26–39): its set of top-level
keys and the `thresholds` mapping from signal type to integer threshold. -/
structure Config where
  keys : List String
  thresholds : List (String × ℤ)
deriving DecidableEq, Repr

/-- `required_keys` (main.py line 31). -/
def requiredKeys : List String :=
  ["database", "redis", "thresholds"]

/-- The startup validation loop (main.py lines 32–34): accepts the
configuration iff every required top-level key is present. -/
def validateConfig (c : Config) : Bool :=
  requiredKeys.all (fun k => c.keys.contains k)

/-- Python `dict` lookup on an association list. -/
def lookupList (m : List (String × ℤ)) (k : String) : Option ℤ :=
  (m.find? (fun p => p.1 == k)).map Prod.snd

/-- `THRESHOLDS.get(evt.signal_type, THRESHOLDS["default"])` (main.py line
128).  Python evaluates the fallback argument `THRESHOLDS["default"]`
eagerly, so the lookup raises `KeyError` (modelled as `none`) whenever
`"default"` is absent — even when `signal_type` itself is mapped. -/
def lookupThreshold (m : List (String × ℤ)) (sig : String) : Option ℤ :=
  match lookupList m "default" with
  | none => none
  | some d => some ((lookupList m sig).getD d)

/-- Index of the first successful attempt among the first `k`, given the
per-attempt outcome oracle `o`. -/
def firstSuccessWithin (o : ℕ → Bool) (k : ℕ) : Option ℕ :=
  (List.range k).find? o

/-- `commit_with_retry` (main.py lines 84–86), a commit wrapped in
`@retry(stop=stop_after_attempt(3), wait=wait_fixed(1))`: tries the commit
up to 3 times, returning the number of attempts made and whether one of
them succeeded. -/
def commitWithRetry (o : ℕ → Bool) : ℕ × Bool :=
  match firstSuccessWithin o 3 with
  | some i => (i + 1, true)
  | none => (3, false)

/-- The waits performed by `wait_fixed(1)`: one 1-second pause between
consecutive attempts. -/
def retryWaits (attempts : ℕ) : List ℚ :=
  List.replicate (attempts - 1) 1

/-- The pydantic `SignalEvent` model (main.py lines 89–94). -/
structure SignalEvent where
  user_id : String
  agent_id : String
  signal_type : String
  timestamp : ℚ
  payload : List (String × String)
deriving DecidableEq, Repr

/-- An inbound request body before validation: each field is present or
absent; for `timestamp`, `some` means present and parseable as a datetime. -/
structure RawRequest where
  user_id : Option String
  agent_id : Option String
  signal_type : Option String
  timestamp : Option ℚ
  payload : Option (List (String × String))
deriving DecidableEq, Repr

/-- Request-boundary validation performed by pydantic: all of `user_id`,
`agent_id`, `signal_type`, `timestamp` must be supplied; `payload` defaults
to an empty mapping (main.py line 94). -/
def parseSignalEvent (r : RawRequest) : Option SignalEvent :=
  match r.user_id, r.agent_id, r.signal_type, r.timestamp with
  | some u, some a, some s, some t => some ⟨u, a, s, t, r.payload.getD []⟩
  | _, _, _, _ => none

/-- An `Anomaly` row (models.py / main.py lines 137–144). -/
structure AnomalyRec where
  user_id : String
  detected_at : ℚ
  count : ℕ
  window_start : ℚ
  severity : Severity
  rule : String
deriving DecidableEq, Repr

/-- The ways an ingestion request can fail after validation:
`commitFailed` is the `RetryError` escaping `commit_with_retry`;
`keyErrorDefault` is the `KeyError` from `THRESHOLDS["default"]`;
`indexError` would be `zrange(key, 0, 0)[0]` on an empty window;
`validationFailed` is the 422 produced by pydantic at the boundary. -/
inductive IngestError where
  | commitFailed
  | keyErrorDefault
  | indexError
  | validationFailed
deriving DecidableEq, Repr

/-- The environment of one request: per-attempt outcomes of the two database
commits and the outcome of the webhook call. -/
structure Env where
  eventCommit : ℕ → Bool
  anomalyCommit : ℕ → Bool
  webhookOk : Bool

/-- The Redis keyspace: each string key holds one sorted set. -/
def Store : Type :=
  String → Finset ℚ

/-- `f"window:{evt.user_id}"` (main.py line 117). -/
def windowKey (u : String) : String :=
  "window:" ++ u

/-- Observable outcome of one ingestion request: the HTTP-level response,
the Redis keyspace afterwards, the durably committed event and anomaly
rows, and whether a webhook dispatch was attempted. -/
structure IngestOutcome where
  response : Except IngestError String
  store : Store
  events : List SignalEvent
  anomalies : List AnomalyRec
  webhookAttempted : Bool

/-- The `/event` handler `ingest` (main.py lines 110–172): commit the event
with retry; add the timestamp to the user's sliding window and purge scores
in `[0, timestamp - 5]`; count; look up the threshold (evaluating
`THRESHOLDS["default"]` eagerly); on breach, read the earliest window entry,
commit the anomaly with retry, and for critical severity attempt the
webhook, swallowing its outcome; finally acknowledge with `"ingested"`. -/
def ingest (thresholds : List (String × ℤ)) (webhookUrl : String) (env : Env)
    (store : Store) (evt : SignalEvent) : IngestOutcome :=
  if (commitWithRetry env.eventCommit).2 = false then
    { response := Except.error IngestError.commitFailed, store := store,
      events := [], anomalies := [], webhookAttempted := false }
  else
    let key := windowKey evt.user_id
    let w := step (store key) evt.timestamp
    let store' : Store := fun k => if k = key then w else store k
    let count := w.card
    match lookupThreshold thresholds evt.signal_type with
    | none =>
      { response := Except.error IngestError.keyErrorDefault, store := store',
        events := [evt], anomalies := [], webhookAttempted := false }
    | some thresh =>
      match severityOf count thresh with
      | none =>
        { response := Except.ok "ingested", store := store',
          events := [evt], anomalies := [], webhookAttempted := false }
      | some sev =>
        if h : 0 < w.card then
          if (commitWithRetry env.anomalyCommit).2 = false then
            { response := Except.error IngestError.commitFailed, store := store',
              events := [evt], anomalies := [], webhookAttempted := false }
          else
            let a : AnomalyRec :=
              { user_id := evt.user_id, detected_at := evt.timestamp,
                count := count, window_start := w.min' (Finset.card_pos.mp h),
                severity := sev,
                rule := evt.signal_type ++ ":" ++ toString thresh }
            { response := Except.ok "ingested", store := store',
              events := [evt], anomalies := [a],
              webhookAttempted := decide (sev = Severity.critical) && (webhookUrl != "") }
        else
          { response := Except.error IngestError.indexError, store := store',
            events := [evt], anomalies := [], webhookAttempted := false }

/-- The request boundary composed with the handler: pydantic validation
rejects with 422 before the handler body — and hence the window store —
is ever reached. -/
def handleRequest (thresholds : List (String × ℤ)) (webhookUrl : String)
    (env : Env) (store : Store) (r : RawRequest) : IngestOutcome :=
  match parseSignalEvent r with
  | none =>
    { response := Except.error IngestError.validationFailed, store := store,
      events := [], anomalies := [], webhookAttempted := false }
  | some evt => ingest thresholds webhookUrl env store evt

/-- Distinct users have distinct Redis window keys. -/
lemma windowKey_inj {u v : String} (h : windowKey u = windowKey v) : u = v := by
  have hd := congrArg String.data h
  simp only [windowKey, String.data_append] at hd
  exact String.ext (List.append_cancel_left hd)

/-- CLAIM C7.  Each persistence write is attempted at most 3 times; it
succeeds as soon as one attempt succeeds (making exactly the failed attempts
plus the first successful one); the failure is surfaced to the caller
exactly when all 3 attempts fail; and the pauses between consecutive
attempts are at most two fixed 1-second waits. -/
theorem commit_retry_policy (o : ℕ → Bool) :
    (commitWithRetry o).1 ≤ 3
    ∧ ((commitWithRetry o).2 = true ↔ (o 0 = true ∨ o 1 = true ∨ o 2 = true))
    ∧ (∀ i, firstSuccessWithin o 3 = some i →
        (∀ j < i, o j = false) ∧ o i = true ∧ commitWithRetry o = (i + 1, true))
    ∧ ((commitWithRetry o).2 = false ↔ (o 0 = false ∧ o 1 = false ∧ o 2 = false))
    ∧ (retryWaits (commitWithRetry o).1).length ≤ 2
    ∧ (∀ wt ∈ retryWaits (commitWithRetry o).1, wt = 1) := by
  have hr : List.range 3 = [0, 1, 2] := rfl
  cases h0 : o 0 <;> cases h1 : o 1 <;> cases h2 : o 2 <;>
    simp_all [commitWithRetry, firstSuccessWithin, hr, List.find?, retryWaits]
  all_goals
    first
    | omega
    | (intro j hj
       interval_cases j <;> simp_all)

/-- Concrete instance of `commit_retry_policy`: when the first attempt fails
and the second succeeds, the commit makes exactly 2 attempts and succeeds. -/
theorem commit_retry_policy_witness :
    commitWithRetry (fun n => n == 1) = (2, true) := by
  exact ((commit_retry_policy (fun n => n == 1)).2.2.1 1 rfl).2.2

/-- CLAIM C9.  Ingesting an event for one user reads and writes only that
user's window key: for every other user `v`, the contents of `v`'s window
are unchanged by the ingestion. -/
theorem ingest_frame (thresholds : List (String × ℤ)) (url : String) (env : Env)
    (store : Store) (evt : SignalEvent) (v : String) (hv : v ≠ evt.user_id) :
    (ingest thresholds url env store evt).store (windowKey v) = store (windowKey v) := by
  have hk : windowKey v ≠ windowKey evt.user_id := fun h => hv (windowKey_inj h)
  simp only [ingest]
  split
  · rfl
  · split
    · simp [hk]
    · split
      · simp [hk]
      · split
        · split
          · simp [hk]
          · simp [hk]
        · simp [hk]

/-- Concrete instance of `ingest_frame`: an ingestion for user `"u"` leaves
the window of user `"v"` empty. -/
theorem ingest_frame_witness :
    (ingest [("default", 0)] "" ⟨fun _ => true, fun _ => true, true⟩ (fun _ => ∅)
        ⟨"u", "a", "s", 3, []⟩).store (windowKey "v") = ∅ := by
  exact ingest_frame [("default", 0)] "" ⟨fun _ => true, fun _ => true, true⟩
    (fun _ => ∅) ⟨"u", "a", "s", 3, []⟩ "v" (by decide)

/-- CLAIM C10.  With every configured threshold a non-negative integer, the
post-prune window always contains at least the event's own timestamp, so the
earliest-timestamp lookup in the breach branch never indexes an empty
sequence: `ingest` never fails with an index error. -/
theorem breach_window_nonempty (thresholds : List (String × ℤ)) (url : String)
    (env : Env) (store : Store) (evt : SignalEvent)
    (_hpos : ∀ p ∈ thresholds, 0 ≤ p.2) :
    (step (store (windowKey evt.user_id)) evt.timestamp).Nonempty
    ∧ (ingest thresholds url env store evt).response
        ≠ Except.error IngestError.indexError := by
  refine ⟨⟨evt.timestamp, mem_step_self _ _⟩, ?_⟩
  simp only [ingest]
  split
  · simp
  · split
    · simp
    · split
      · simp
      · split
        · split
          · simp
          · simp
        · rename_i hcard
          exact absurd (Finset.card_pos.mpr ⟨evt.timestamp, mem_step_self _ _⟩) hcard

/-- Concrete instance of `breach_window_nonempty`: with the non-negative
threshold configuration `{"default": 0}`, the breach branch is reached and
the ingestion does not fail with an index error. -/
theorem breach_window_nonempty_witness :
    (ingest [("default", 0)] "" ⟨fun _ => true, fun _ => true, true⟩ (fun _ => ∅)
        ⟨"u", "a", "s", 3, []⟩).response ≠ Except.error IngestError.indexError := by
  exact (breach_window_nonempty [("default", 0)] "" ⟨fun _ => true, fun _ => true, true⟩
    (fun _ => ∅) ⟨"u", "a", "s", 3, []⟩ (by decide)).2

/-- CLAIM C5 (counterexample).  A configuration whose thresholds mapping
lacks the `"default"` key passes startup validation (only `database`,
`redis`, `thresholds` are required), so startup does not fail; every later
threshold lookup then raises `KeyError` — even for a mapped signal type,
because the fallback `THRESHOLDS["default"]` is evaluated eagerly. -/
theorem default_not_required_counterexample :
    validateConfig ⟨["database", "redis", "thresholds"], [("stressed", 10)]⟩ = true
    ∧ lookupThreshold [("stressed", 10)] "stressed" = none := by
  exact ⟨rfl, rfl⟩

/-- CLAIM C5 (amended).  Startup validation requires only the top-level keys
`database`, `redis` and `thresholds`, and never inspects the thresholds
mapping itself; a configuration without a `"default"` threshold therefore
starts up.  Every ingestion against such a configuration evaluates
`THRESHOLDS["default"]` eagerly and fails with a `KeyError` — but only
after the event has been durably persisted and the user's window updated. -/
theorem missing_default_passes_startup (c : Config) :
    (validateConfig c = true ↔
      ("database" ∈ c.keys ∧ "redis" ∈ c.keys ∧ "thresholds" ∈ c.keys))
    ∧ (∀ url env store evt, lookupList c.thresholds "default" = none →
        (commitWithRetry env.eventCommit).2 = true →
        (ingest c.thresholds url env store evt).response
            = Except.error IngestError.keyErrorDefault
        ∧ (ingest c.thresholds url env store evt).events = [evt]
        ∧ (ingest c.thresholds url env store evt).store (windowKey evt.user_id)
            = step (store (windowKey evt.user_id)) evt.timestamp) := by
  constructor
  · simp [validateConfig, requiredKeys, List.all_eq_true]
  · intro url env store evt hdef hec
    have hlook : lookupThreshold c.thresholds evt.signal_type = none := by
      simp [lookupThreshold, hdef]
    refine ⟨?_, ?_, ?_⟩ <;> simp [ingest, hec, hlook]

/-- Concrete instance of `missing_default_passes_startup`: against the
thresholds mapping `{"stressed": 10}`, ingesting a `"stressed"` event fails
with the `KeyError` even though its signal type is mapped. -/
theorem missing_default_witness :
    (ingest [("stressed", 10)] "" ⟨fun _ => true, fun _ => true, true⟩ (fun _ => ∅)
        ⟨"u", "a", "stressed", 3, []⟩).response
      = Except.error IngestError.keyErrorDefault := by
  exact ((missing_default_passes_startup
    ⟨["database", "redis", "thresholds"], [("stressed", 10)]⟩).2 ""
    ⟨fun _ => true, fun _ => true, true⟩ (fun _ => ∅)
    ⟨"u", "a", "stressed", 3, []⟩ rfl rfl).1

/-- CLAIM C6.  The alert dispatch outcome is swallowed: the entire observable
outcome of an ingestion is independent of whether the webhook call succeeds
or fails, and whenever both persistence commits succeed and the threshold
configuration has its `"default"` key, the ingestion responds with the
success acknowledgement `"ingested"` — whether or not an anomaly was
detected and dispatched. -/
theorem dispatch_failure_swallowed (thresholds : List (String × ℤ)) (url : String)
    (ec ac : ℕ → Bool) (b b' : Bool) (store : Store) (evt : SignalEvent) :
    ingest thresholds url ⟨ec, ac, b⟩ store evt
        = ingest thresholds url ⟨ec, ac, b'⟩ store evt
    ∧ ((commitWithRetry ec).2 = true → (commitWithRetry ac).2 = true →
        lookupList thresholds "default" ≠ none →
        (ingest thresholds url ⟨ec, ac, b⟩ store evt).response = Except.ok "ingested") := by
  constructor
  · rfl
  · intro hec hac hdef
    obtain ⟨d, hd⟩ := Option.ne_none_iff_exists'.mp hdef
    have hlook : lookupThreshold thresholds evt.signal_type
        = some ((lookupList thresholds evt.signal_type).getD d) := by
      simp [lookupThreshold, hd]
    simp only [ingest, hec, hlook]
    norm_num
    split
    · rfl
    · rw [dif_pos ⟨evt.timestamp, mem_step_self _ _⟩]
      simp [hac]

/-- Concrete instance of `dispatch_failure_swallowed`: with threshold 0 an
anomaly is detected with critical severity, both commits succeed, and the
request is acknowledged with `"ingested"` even though the webhook outcome is
a failure. -/
theorem dispatch_failure_swallowed_witness :
    (ingest [("default", 0)] "http://hook" ⟨fun _ => true, fun _ => true, false⟩
        (fun _ => ∅) ⟨"u", "a", "s", 3, []⟩).response = Except.ok "ingested" := by
  exact (dispatch_failure_swallowed [("default", 0)] "http://hook"
    (fun _ => true) (fun _ => true) false true (fun _ => ∅)
    ⟨"u", "a", "s", 3, []⟩).2 rfl rfl (by simp [lookupList])

/-- CLAIM C8 (counterexample).  A request supplying `user_id`, `signal_type`
and a parseable `timestamp` but no `agent_id` is rejected by the pydantic
boundary — `agent_id` is a fourth required field the claim omits. -/
theorem boundary_counterexample :
    parseSignalEvent ⟨some "u", none, some "s", some 3, none⟩ = none
    ∧ (handleRequest [("default", 5)] "" ⟨fun _ => true, fun _ => true, true⟩
        (fun _ => ∅) ⟨some "u", none, some "s", some 3, none⟩).response
      = Except.error IngestError.validationFailed := by
  exact ⟨rfl, rfl⟩

/-- CLAIM C8 (amended).  The boundary accepts a request exactly when all
four of `user_id`, `agent_id`, `signal_type` and a parseable `timestamp`
are supplied, with `payload` defaulting to an empty mapping when absent;
a request missing any of the four is rejected at the boundary with a
validation error, before any window-store access: the whole keyspace is
left untouched. -/
theorem boundary_validation (r : RawRequest) (thresholds : List (String × ℤ))
    (url : String) (env : Env) (store : Store) :
    ((parseSignalEvent r).isSome ↔
      (r.user_id.isSome ∧ r.agent_id.isSome ∧ r.signal_type.isSome ∧ r.timestamp.isSome))
    ∧ (parseSignalEvent r = none →
        (handleRequest thresholds url env store r).response
            = Except.error IngestError.validationFailed
        ∧ ∀ k, (handleRequest thresholds url env store r).store k = store k)
    ∧ (r.payload = none → ∀ e, parseSignalEvent r = some e → e.payload = []) := by
  obtain ⟨u, a, s, t, p⟩ := r
  cases u <;> cases a <;> cases s <;> cases t <;>
    simp_all [parseSignalEvent, handleRequest]

/-- Concrete instances of `boundary_validation`: a request with all four
required fields and no payload is accepted with an empty payload, and a
request without `agent_id` leaves the window store untouched. -/
theorem boundary_validation_witness :
    (parseSignalEvent ⟨some "u", some "a", some "s", some 3, none⟩).isSome = true
    ∧ (handleRequest [] "" ⟨fun _ => true, fun _ => true, true⟩ (fun _ => ∅)
        ⟨some "u", none, some "s", some 3, none⟩).store (windowKey "u") = ∅ := by
  constructor
  · exact (boundary_validation ⟨some "u", some "a", some "s", some 3, none⟩ [] ""
      ⟨fun _ => true, fun _ => true, true⟩ (fun _ => ∅)).1.mpr (by simp)
  · exact ((boundary_validation ⟨some "u", none, some "s", some 3, none⟩ [] ""
      ⟨fun _ => true, fun _ => true, true⟩ (fun _ => ∅)).2.1 rfl).2 (windowKey "u")

end SignalService
